import Mathlib

/-!
Shallow embedding of `pkg/gateway/utils/http.go` (package `utils`) from the
kuscia repository, together with theorems settling the claims about
`ParseURL`, `DoHTTPWithHandler`, `DoHTTP` and `DoHTTPWithRetry`.

Strings handled character-wise (Go `string` indexing/splitting is byte-wise;
all inputs of interest are ASCII, where bytes and characters coincide) are
modelled as `List Char`.  Error values (`error` in Go) are modelled as
`Option String` (`none` = `nil`) or `Except String _`.
-/

namespace KusciaGatewayUtils

/- ===================== Go string primitives ===================== -/

/-- Go `strings.HasPrefix(s, p)` for a one-byte-per-char prefix:
`startsWithL p s` is true iff `p` is a prefix of `s`. -/
def startsWithL : List Char → List Char → Bool
  | [], _ => true
  | _ :: _, [] => false
  | p :: ps, x :: xs => p == x && startsWithL ps xs

/-- Go `strings.SplitN(s, sep, 2)` for a single-character separator:
returns the part before the first occurrence of `c`, and `some rest`
when `c` occurs (`rest` = everything after the first occurrence),
`none` when it does not. -/
def splitNFirst (c : Char) : List Char → List Char × Option (List Char)
  | [] => ([], none)
  | x :: xs =>
    if x = c then ([], some xs)
    else
      let r := splitNFirst c xs
      (x :: r.1, r.2)

/-- Go `strings.Split(s, sep)` for a single-character separator.
Always returns a non-empty list; `splitAll c [] = [[]]` like Go's
`Split("", sep) = [""]`. -/
def splitAll (c : Char) : List Char → List (List Char)
  | [] => [[]]
  | x :: xs =>
    if x = c then [] :: splitAll c xs
    else
      match splitAll c xs with
      | [] => [[x]]
      | a :: rest => (x :: a) :: rest

/- ===================== Go strconv.Atoi ===================== -/

def allDigits (s : List Char) : Bool := s.all fun c => '0' ≤ c && c ≤ '9'

def digitsVal (s : List Char) : Nat :=
  s.foldl (fun acc c => acc * 10 + (c.toNat - '0'.toNat)) 0

def maxInt64 : Int := 9223372036854775807

def minInt64 : Int := -9223372036854775808

/-- Sign handling of Go `strconv.ParseInt`: one optional leading `+` or `-`. -/
def AtoiSign (s : List Char) : Bool × List Char :=
  match s with
  | [] => (false, [])
  | x :: rest =>
    if x = '+' then (false, rest)
    else if x = '-' then (true, rest)
    else (false, x :: rest)

/-- Go `strconv.Atoi(s)` = `ParseInt(s, 10, 0)` with 64-bit `int`:
an optional leading `+`/`-` sign followed by a non-empty run of decimal
digits; the value is clamped to the `int64` range with a range error when
it overflows.  Error messages are abbreviated (the claims only inspect
whether an error is present, never its text). -/
def Atoi (s : List Char) : Int × Option (List Char) :=
  let neg := (AtoiSign s).1
  let digits := (AtoiSign s).2
  if digits = [] ∨ ¬ allDigits digits then (0, some "invalid syntax".data)
  else
    let v : Int := if neg then -(digitsVal digits : Int) else (digitsVal digits : Int)
    if v > maxInt64 then (maxInt64, some "value out of range".data)
    else if v < minInt64 then (minInt64, some "value out of range".data)
    else (v, none)

/-- Go conversion `uint32(i)` of a (64-bit) `int` value, as a `Nat`:
two's-complement truncation to 32 bits. -/
def u32 (i : Int) : Nat := (i.emod 4294967296).toNat

/- ===================== ParseURL ===================== -/

/-- The scheme test at the top of `ParseURL`: `http://` is tried first,
then `https://`; returns the protocol string and the remainder after the
prefix (`url[7:]` resp. `url[8:]`), or `none` when neither prefix matches. -/
def schemeSplit (url : List Char) : Option (List Char × List Char) :=
  if startsWithL "http://".data url then some ("http".data, url.drop 7)
  else if startsWithL "https://".data url then some ("https".data, url.drop 8)
  else none

/-- The rest of `ParseURL` after the scheme has been recognised:
split off the path at the first `/`, split the host-port segment on `:`,
take `fields[0]` as host; with exactly two fields the second goes through
`Atoi` (an `Atoi` error is returned to the caller), otherwise the port
defaults to 80 for `http` and 443 for `https`. -/
def parseURLRest (protocol rest : List Char) :
    (List Char × List Char × Nat × List Char) × Option (List Char) :=
  let fp := splitNFirst '/' rest
  let hostPort := fp.1
  let path : List Char :=
    match fp.2 with
    | some p => '/' :: p
    | none => []
  let fields := splitAll ':' hostPort
  let host := fields.headD []
  if fields.length = 2 then
    let pr := Atoi (fields.getD 1 [])
    match pr.2 with
    | some e => ((protocol, host, u32 pr.1, path), some e)
    | none => ((protocol, host, u32 pr.1, path), none)
  else
    let port : Int := if protocol = "http".data then 80 else 443
    ((protocol, host, u32 port, path), none)

/-- Go `ParseURL(url string) (string, string, uint32, string, error)`:
result is `((protocol, host, port, path), err)`. -/
def ParseURL (url : List Char) :
    (List Char × List Char × Nat × List Char) × Option (List Char) :=
  match schemeSplit url with
  | some pr => parseURLRest pr.1 pr.2
  | none => (([], [], 0, []), some ("invalid host: ".data ++ url))

example : ParseURL "http://example.com/foo".data =
    (("http".data, "example.com".data, 80, "/foo".data), none) := by decide

example : ParseURL "https://example.com:8443".data =
    (("https".data, "example.com".data, 8443, []), none) := by decide

example : (ParseURL "ftp://x".data).2 = some "invalid host: ftp://x".data := by decide

example : ParseURL "http://a:1:2".data = (("http".data, "a".data, 80, []), none) := by decide

example : ParseURL "http://".data = (("http".data, [], 80, []), none) := by decide

example : (ParseURL "http://h:x".data).2 = some "invalid syntax".data := by decide

example : ParseURL "http://h:-1".data =
    (("http".data, "h".data, 4294967295, []), none) := by decide

/- ===================== well-formed URLs (for the spec's claims) ===================== -/

/-- The optional `:port` part of a URL. -/
def portPart : Option (List Char) → List Char
  | some p => ':' :: p
  | none => []

/-- The path the spec expects: `/` + segment, empty when no segment is given
(also the optional `/path` part of the assembled URL). -/
def expectedPath : Option (List Char) → List Char
  | some q => '/' :: q
  | none => []

/-- Assembles `scheme://host[:port][/path]` from its components. -/
def buildURL (scheme host : List Char) (ps path : Option (List Char)) : List Char :=
  scheme ++ "://".data ++ host ++ portPart ps ++ expectedPath path

/-- A well-formed host: non-empty, and free of the two separator characters. -/
def WFhost (host : List Char) : Prop := host ≠ [] ∧ ':' ∉ host ∧ '/' ∉ host

/-- A well-formed optional port: a non-empty digit string denoting a port
number (≤ 65535). -/
def WFport : Option (List Char) → Prop
  | none => True
  | some p => p ≠ [] ∧ allDigits p = true ∧ digitsVal p ≤ 65535

instance : DecidablePred WFhost := fun h => by unfold WFhost; infer_instance

instance : DecidablePred WFport := fun p => by cases p <;> unfold WFport <;> infer_instance

def defaultPort (protocol : List Char) : Nat :=
  if protocol = "http".data then 80 else 443

/-- The port the spec expects: the explicit one, defaulted per scheme. -/
def expectedPort (protocol : List Char) : Option (List Char) → Nat
  | some p => digitsVal p
  | none => defaultPort protocol

/- ===================== DoHTTPWithHandler ===================== -/

/-- Go `HTTPParam`. -/
structure HTTPParam where
  Method : String
  Path : String
  ClusterName : String
  KusciaSource : String
  KusciaHost : String
  Headers : List (String × String)
deriving Repr, DecidableEq

/-- Go `ErrType` (the six failure categories). -/
inductive ErrType where
  | NewHTTPRequestError
  | InParameterMarshalToJSONError
  | OutParameterRunMarshalFromJSONError
  | ResponseStatusCodeNotOK
  | DoHTTPError
  | IOError
deriving Repr, DecidableEq

/-- The part of `*http.Response` the code inspects. -/
structure Resp where
  statusCode : Nat
deriving Repr, DecidableEq

/-- Stub of the external collaborators of one `DoHTTPWithHandler` attempt:
the result of `json.Marshal(in)`, of `http.NewRequest`, of `client.Do`,
of `io.ReadAll(resp.Body)` (bytes read so far plus an optional error,
as in Go), and of `json.Unmarshal(body, out)` (`.ok v` means the decoded
value `v` is stored into the output location).  Response bodies are
`String`s (byte-wise truncation = `String.take` on ASCII). -/
structure Env (α : Type) where
  marshal : Except String String
  newRequest : Except String Unit
  send : Except String Resp
  readBody : String × Option String
  unmarshal : String → Except String α

/-- Sites where the Go code dereferences a nil pointer when a failing
step did not return early (possible only with a nil handler). -/
inductive PanicSite where
  | headerSetOnNilRequest
  | bodyOfNilResponse
deriving Repr, DecidableEq

/-- Observable outcome of one `DoHTTPWithHandler` execution:
the handler invocations in order (category and error text), whether
`json.Marshal(in)` was attempted, the body `http.NewRequest` was invoked
with (`some none` = invoked with `nil` body, `some (some b)` = invoked
with body `b`, `none` = never invoked), whether `json.Unmarshal` ran, a
nil-pointer dereference if one occurred, and the value written to the
output location (`none` = the location was left unchanged). -/
structure ExecResult (α : Type) where
  handlerCalls : List (ErrType × String) := []
  marshalAttempted : Bool := false
  reqBodyUsed : Option (Option String) := none
  unmarshalAttempted : Bool := false
  panicked : Option PanicSite := none
  out : Option α := none

/-- Steps from `resp.StatusCode != http.StatusOK` on (lines 141–156):
the status check guarded by `handler != nil`, then `json.Unmarshal`. -/
def statusAndUnmarshal (env : Env α) (handlerPresent : Bool) (resp : Resp)
    (body : String) (mAtt : Bool) (rbu : Option (Option String)) : ExecResult α :=
  if resp.statusCode ≠ 200 ∧ handlerPresent then
    { handlerCalls :=
        [(.ResponseStatusCodeNotOK,
          "code: " ++ toString resp.statusCode ++ ", message: " ++ body.take 200)],
      marshalAttempted := mAtt, reqBodyUsed := rbu }
  else
    match env.unmarshal body with
    | .error e =>
      if handlerPresent then
        { handlerCalls :=
            [(.OutParameterRunMarshalFromJSONError, e ++ ", body:" ++ body.take 200)],
          marshalAttempted := mAtt, reqBodyUsed := rbu, unmarshalAttempted := true }
      else
        { marshalAttempted := mAtt, reqBodyUsed := rbu, unmarshalAttempted := true }
    | .ok v =>
      { marshalAttempted := mAtt, reqBodyUsed := rbu, unmarshalAttempted := true,
        out := some v }

/-- Steps from `req.Header.Set` on (lines 120–139): header setting (a nil
`req` panics here), `client.Do` (on error with a nil handler, `resp` is nil
and `resp.Body` panics), `io.ReadAll` (on error with a nil handler the Go
code continues to the status check with the bytes read so far). -/
def afterBuild (env : Env α) (handlerPresent : Bool) (reqOk : Bool)
    (mAtt : Bool) (rbu : Option (Option String)) : ExecResult α :=
  if !reqOk then
    { marshalAttempted := mAtt, reqBodyUsed := rbu,
      panicked := some .headerSetOnNilRequest }
  else
    match env.send with
    | .error e =>
      if handlerPresent then
        { handlerCalls := [(.DoHTTPError, e)], marshalAttempted := mAtt,
          reqBodyUsed := rbu }
      else
        { marshalAttempted := mAtt, reqBodyUsed := rbu,
          panicked := some .bodyOfNilResponse }
    | .ok resp =>
      match env.readBody.2 with
      | some e =>
        if handlerPresent then
          { handlerCalls := [(.IOError, e)], marshalAttempted := mAtt,
            reqBodyUsed := rbu }
        else
          statusAndUnmarshal env handlerPresent resp env.readBody.1 mAtt rbu
      | none => statusAndUnmarshal env handlerPresent resp env.readBody.1 mAtt rbu

/-- The non-GET branch after `json.Marshal` produced body `b` (on a marshal
error with a nil handler, Go continues with a nil `inbody`, i.e. an empty
buffer): `http.NewRequest(hp.Method, url, bytes.NewBuffer(inbody))`. -/
def buildNonGet (env : Env α) (handlerPresent : Bool) (b : String) : ExecResult α :=
  match env.newRequest with
  | .error e =>
    if handlerPresent then
      { handlerCalls := [(.NewHTTPRequestError, e)], marshalAttempted := true,
        reqBodyUsed := some (some b) }
    else
      afterBuild env handlerPresent false true (some (some b))
  | .ok _ => afterBuild env handlerPresent true true (some (some b))

/-- Go `DoHTTPWithHandler(in, out, hp, handler)` (lines 98–156), with the
collaborators stubbed by `env` and the handler modelled by its presence
(`handlerPresent = false` is Go's `handler == nil`; invocations are
recorded in the result).  Every error check in the source reads
`err != nil && handler != nil`, so with a nil handler a failing step does
not return early. -/
def DoHTTPWithHandler (env : Env α) (hp : HTTPParam) (handlerPresent : Bool) :
    ExecResult α :=
  if hp.Method = "GET" then
    match env.newRequest with
    | .error e =>
      if handlerPresent then
        { handlerCalls := [(.NewHTTPRequestError, e)], reqBodyUsed := some none }
      else
        afterBuild env handlerPresent false false (some none)
    | .ok _ => afterBuild env handlerPresent true false (some none)
  else
    match env.marshal with
    | .error e =>
      if handlerPresent then
        { handlerCalls := [(.InParameterMarshalToJSONError, e)],
          marshalAttempted := true }
      else
        buildNonGet env handlerPresent ""
    | .ok b => buildNonGet env handlerPresent b

/- ===================== DoHTTP ===================== -/

/-- Go `genErrorPrefix(hp)`. -/
def genErrorPrefixStr (hp : HTTPParam) : String :=
  "request(method:" ++ hp.Method ++ " path:" ++ hp.Path ++ " cluster:" ++
    hp.ClusterName ++ " host:" ++ hp.KusciaHost ++ ")"

/-- The default handler installed by `DoHTTP` (lines 160–175): formats the
classified error into the message stored in the captured variable `e`. -/
def formatHandlerErr (hp : HTTPParam) : ErrType → String → String
  | .NewHTTPRequestError, e => genErrorPrefixStr hp ++ " new fail:" ++ e
  | .InParameterMarshalToJSONError, e =>
    genErrorPrefixStr hp ++ " in parameter marshal to json fail:" ++ e
  | .OutParameterRunMarshalFromJSONError, e =>
    genErrorPrefixStr hp ++ " out parameter unmarshal from json fail:" ++ e
  | .ResponseStatusCodeNotOK, e => genErrorPrefixStr hp ++ " get code is not ok: " ++ e
  | .DoHTTPError, e => genErrorPrefixStr hp ++ " do fail: " ++ e
  | .IOError, e => genErrorPrefixStr hp ++ " read body fail: " ++ e

/-- Go `DoHTTP(in, out, hp)`: run `DoHTTPWithHandler` with the default
formatting handler (non-nil); the returned error is the last (in fact only)
handler invocation's formatted message, `nil` when the handler never ran. -/
def DoHTTP (env : Env α) (hp : HTTPParam) : ExecResult α × Option String :=
  let r := DoHTTPWithHandler env hp true
  (r, r.handlerCalls.getLast?.map fun p => formatHandlerErr hp p.1 p.2)

/- ===================== DoHTTPWithRetry ===================== -/

inductive RetryOutcome where
  | success
  | failure (msg : String)
  /-- `maxRetryTimes ≤ 0`: the loop body never ran, `err` is still `nil`,
  and `err.Error()` in the final `fmt.Errorf` dereferences a nil interface. -/
  | panicNilError
deriving Repr, DecidableEq

/-- Observable outcome of `DoHTTPWithRetry`: number of `DoHTTP` attempts,
number of `time.Sleep(waitTime)` calls, final content of the output
location (`none` = never written), and the returned error / panic. -/
structure RetryResult (α : Type) where
  attempts : Nat
  sleeps : Nat
  out : Option α
  outcome : RetryOutcome

/-- The final `fmt.Errorf("request error, retry at maxtimes:%d, path: %s, err:%s", ...)`. -/
def fmtRetryErr (maxRetryTimes : Int) (path e : String) : String :=
  "request error, retry at maxtimes:" ++ toString maxRetryTimes ++ ", path: " ++
    path ++ ", err:" ++ e

/-- The output location keeps its previous content unless the attempt wrote it. -/
def updOut (cur w : Option α) : Option α :=
  match w with
  | some v => some v
  | none => cur

/-- The loop `for i := 0; i < maxRetryTimes; i++` of `DoHTTPWithRetry`:
`fuel` is the number of remaining iterations, `i` the number of attempts
made so far (each one followed by a sleep, since every failed attempt
sleeps — including the last), `curOut` the current content of the output
location and `lastErr` the current value of `err`. -/
def retryAux (envs : Nat → Env α) (hp : HTTPParam) (maxRetryTimes : Int) :
    Nat → Nat → Option α → Option String → RetryResult α
  | 0, i, curOut, lastErr =>
    match lastErr with
    | none => ⟨i, i, curOut, .panicNilError⟩
    | some e => ⟨i, i, curOut, .failure (fmtRetryErr maxRetryTimes hp.Path e)⟩
  | fuel + 1, i, curOut, _ =>
    match (DoHTTP (envs i) hp).2 with
    | none => ⟨i + 1, i, updOut curOut (DoHTTP (envs i) hp).1.out, .success⟩
    | some e =>
      retryAux envs hp maxRetryTimes fuel (i + 1)
        (updOut curOut (DoHTTP (envs i) hp).1.out) (some e)

/-- Go `DoHTTPWithRetry(in, out, hp, waitTime, maxRetryTimes)`: attempt
`i` runs `DoHTTP` against `envs i`; `waitTime` only determines each
sleep's duration, so only the number of sleeps is recorded. -/
def DoHTTPWithRetry (envs : Nat → Env α) (hp : HTTPParam) (maxRetryTimes : Int) :
    RetryResult α :=
  retryAux envs hp maxRetryTimes maxRetryTimes.toNat 0 none none

/- ===================== test fixtures ===================== -/

def isOkB : Except ε β → Bool
  | .ok _ => true
  | .error _ => false

/-- A non-GET parameter record. -/
def hpPost : HTTPParam := ⟨"POST", "/p", "c", "s", "h", []⟩

/-- A GET parameter record. -/
def hpGet : HTTPParam := ⟨"GET", "/g", "c", "s", "h", []⟩

/-- Every step succeeds; the body decodes to `7`. -/
def envOK : Env Nat :=
  { marshal := .ok "{}", newRequest := .ok (), send := .ok ⟨200⟩,
    readBody := ("7", none), unmarshal := fun _ => .ok 7 }

/-- Input serialization fails. -/
def envFail : Env Nat :=
  { marshal := .error "boom", newRequest := .ok (), send := .ok ⟨200⟩,
    readBody := ("7", none), unmarshal := fun _ => .ok 7 }

/-- The response has status 500 but a body that decodes fine. -/
def env500 : Env Nat :=
  { marshal := .ok "{}", newRequest := .ok (), send := .ok ⟨500⟩,
    readBody := ("7", none), unmarshal := fun _ => .ok 7 }

/-- Request construction fails. -/
def envNoReq : Env Nat :=
  { marshal := .ok "{}", newRequest := .error "bad url", send := .ok ⟨200⟩,
    readBody := ("7", none), unmarshal := fun _ => .ok 7 }

/-- Attempt 0 fails, every later attempt succeeds. -/
def c6envs : Nat → Env Nat := fun i => if i = 0 then envFail else envOK

/- ===================== characterization lemmas ===================== -/

/-- An attempt succeeds iff every step of `DoHTTPWithHandler` succeeds:
construction (marshal first unless GET), send, body read, a 200 status,
and deserialization of the body. -/
def envSucceeds (env : Env α) (hp : HTTPParam) : Bool :=
  (if hp.Method = "GET" then isOkB env.newRequest
   else isOkB env.marshal && isOkB env.newRequest)
  && isOkB env.send
  && env.readBody.2.isNone
  && (match env.send with
      | .ok resp => resp.statusCode == 200
      | .error _ => false)
  && isOkB (env.unmarshal env.readBody.1)

theorem run_success_char (env : Env α) (hp : HTTPParam)
    (h : envSucceeds env hp = true) :
    (DoHTTPWithHandler env hp true).handlerCalls = [] ∧
    ∃ v, env.unmarshal env.readBody.1 = .ok v ∧
      (DoHTTPWithHandler env hp true).out = some v := by
  rcases env with ⟨m, nr, snd, rb, um⟩
  rcases rb with ⟨bodyS, rerr⟩
  rcases hv : um bodyS with e | v <;>
  rcases m with em | bm <;> rcases nr with en | u <;> rcases snd with es | resp <;>
  rcases rerr with _ | er <;>
  by_cases hg : hp.Method = "GET" <;>
  simp_all [envSucceeds, isOkB, DoHTTPWithHandler, buildNonGet, afterBuild,
    statusAndUnmarshal]

theorem run_fail_char (env : Env α) (hp : HTTPParam)
    (h : envSucceeds env hp = false) :
    (DoHTTPWithHandler env hp true).handlerCalls.length = 1 ∧
    (DoHTTPWithHandler env hp true).out = none := by
  rcases env with ⟨m, nr, snd, rb, um⟩
  rcases rb with ⟨bodyS, rerr⟩
  rcases hv : um bodyS with e | v <;>
  rcases m with em | bm <;> rcases nr with en | u <;> rcases snd with es | ⟨⟨st⟩⟩ <;>
  rcases rerr with _ | er <;>
  by_cases hg : hp.Method = "GET" <;>
  simp_all [envSucceeds, isOkB, DoHTTPWithHandler, buildNonGet, afterBuild,
    statusAndUnmarshal] <;>
  by_cases hst : st = 200 <;>
  simp_all

theorem doHTTP_err_none_iff (env : Env α) (hp : HTTPParam) :
    (DoHTTP env hp).2 = none ↔ envSucceeds env hp = true := by
  cases h : envSucceeds env hp
  · obtain ⟨h1, _⟩ := run_fail_char env hp h
    obtain ⟨a, ha⟩ := List.length_eq_one.mp h1
    simp [DoHTTP, ha]
  · obtain ⟨h1, v, hv, hout⟩ := run_success_char env hp h
    simp [DoHTTP, h1]

theorem doHTTP_success_out (env : Env α) (hp : HTTPParam)
    (h : (DoHTTP env hp).2 = none) :
    ∃ v, env.unmarshal env.readBody.1 = .ok v ∧ (DoHTTP env hp).1.out = some v := by
  have hs := (doHTTP_err_none_iff env hp).mp h
  obtain ⟨_, v, hv, hout⟩ := run_success_char env hp hs
  exact ⟨v, hv, hout⟩

theorem retryAux_all_fail (envs : Nat → Env α) (hp : HTTPParam) (maxR : Int)
    (es : Nat → String) (hf : ∀ i, (DoHTTP (envs i) hp).2 = some (es i)) :
    ∀ fuel i curOut lastErr, 0 < fuel →
      ∃ o, retryAux envs hp maxR fuel i curOut lastErr =
        ⟨i + fuel, i + fuel,
          o, .failure (fmtRetryErr maxR hp.Path (es (i + fuel - 1)))⟩ := by
  intro fuel
  induction fuel with
  | zero => intro i c l h; omega
  | succ f ih =>
    intro i curOut lastErr _
    rcases Nat.eq_zero_or_pos f with hf0 | hfp
    · subst hf0
      refine ⟨updOut curOut (DoHTTP (envs i) hp).1.out, ?_⟩
      simp [retryAux, hf i]
    · obtain ⟨o, ho⟩ :=
        ih (i + 1) (updOut curOut (DoHTTP (envs i) hp).1.out) (some (es i)) hfp
      refine ⟨o, ?_⟩
      have e1 : i + 1 + f = i + (f + 1) := by omega
      rw [e1] at ho
      simp [retryAux, hf i, ho]

theorem retryAux_success (envs : Nat → Env α) (hp : HTTPParam) (maxR : Int)
    (s : Nat)
    (hfail : ∀ j, j < s → ((DoHTTP (envs j) hp).2).isSome = true)
    (hsucc : (DoHTTP (envs s) hp).2 = none) :
    ∀ fuel i curOut lastErr, i ≤ s → s < i + fuel →
      retryAux envs hp maxR fuel i curOut lastErr =
        ⟨s + 1, s, (DoHTTP (envs s) hp).1.out, .success⟩ := by
  intro fuel
  induction fuel with
  | zero => intro i _ _ h1 h2; omega
  | succ f ih =>
    intro i curOut lastErr h1 h2
    rcases eq_or_lt_of_le h1 with heq | hlt
    · subst heq
      obtain ⟨v, _, hout⟩ := doHTTP_success_out _ _ hsucc
      simp [retryAux, hsucc, hout, updOut]
    · obtain ⟨e, he⟩ := Option.isSome_iff_exists.mp (hfail i hlt)
      simp [retryAux, he]
      exact ih (i + 1) (updOut curOut (DoHTTP (envs i) hp).1.out) (some e)
        (by omega) (by omega)

theorem retryAux_some_no_panic (envs : Nat → Env α) (hp : HTTPParam) (maxR : Int) :
    ∀ fuel i curOut e,
      (retryAux envs hp maxR fuel i curOut (some e)).outcome ≠ .panicNilError := by
  intro fuel
  induction fuel with
  | zero => intro i curOut e; simp [retryAux]
  | succ f ih =>
    intro i curOut e
    rcases h : (DoHTTP (envs i) hp).2 with _ | e'
    · simp [retryAux, h]
    · simp [retryAux, h]
      exact ih (i + 1) (updOut curOut (DoHTTP (envs i) hp).1.out) e'

theorem retryAux_pos_no_panic (envs : Nat → Env α) (hp : HTTPParam) (maxR : Int) :
    ∀ fuel i curOut lastErr, 0 < fuel →
      (retryAux envs hp maxR fuel i curOut lastErr).outcome ≠ .panicNilError := by
  intro fuel i curOut lastErr hpos
  obtain ⟨f, rfl⟩ := Nat.exists_eq_succ_of_ne_zero (Nat.pos_iff_ne_zero.mp hpos)
  rcases h : (DoHTTP (envs i) hp).2 with _ | e'
  · simp [retryAux, h]
  · simp [retryAux, h]
    exact retryAux_some_no_panic envs hp maxR f (i + 1)
      (updOut curOut (DoHTTP (envs i) hp).1.out) e'

/- ===================== string primitive lemmas ===================== -/

theorem startsWithL_append (p s : List Char) : startsWithL p (p ++ s) = true := by
  induction p with
  | nil => simp [startsWithL]
  | cons c cs ih => simp [startsWithL, ih]

theorem splitNFirst_not_mem (c : Char) (s : List Char) (h : c ∉ s) :
    splitNFirst c s = (s, none) := by
  induction s with
  | nil => simp [splitNFirst]
  | cons x xs ih =>
    rw [List.mem_cons] at h
    push_neg at h
    have hxc : ¬ x = c := fun hh => h.1 hh.symm
    simp [splitNFirst, hxc, ih h.2]

theorem splitNFirst_append (c : Char) (xs ys : List Char) (h : c ∉ xs) :
    splitNFirst c (xs ++ c :: ys) = (xs, some ys) := by
  induction xs with
  | nil => simp [splitNFirst]
  | cons x l ih =>
    rw [List.mem_cons] at h
    push_neg at h
    have hxc : ¬ x = c := fun hh => h.1 hh.symm
    simp [splitNFirst, hxc, ih h.2]

theorem splitAll_not_mem (c : Char) (s : List Char) (h : c ∉ s) :
    splitAll c s = [s] := by
  induction s with
  | nil => simp [splitAll]
  | cons x xs ih =>
    rw [List.mem_cons] at h
    push_neg at h
    have hxc : ¬ x = c := fun hh => h.1 hh.symm
    simp [splitAll, hxc, ih h.2]

theorem splitAll_append (c : Char) (xs ys : List Char) (h : c ∉ xs) :
    splitAll c (xs ++ c :: ys) = xs :: splitAll c ys := by
  induction xs with
  | nil => simp [splitAll]
  | cons x l ih =>
    rw [List.mem_cons] at h
    push_neg at h
    have hxc : ¬ x = c := fun hh => h.1 hh.symm
    have hne : splitAll c (l ++ c :: ys) = l :: splitAll c ys := ih h.2
    simp [splitAll, hxc, hne]

theorem splitAll_ne_nil (c : Char) (s : List Char) : splitAll c s ≠ [] := by
  induction s with
  | nil => simp [splitAll]
  | cons x xs ih =>
    by_cases hxc : x = c <;> simp [splitAll, hxc]
    rcases hsp : splitAll c xs with _ | ⟨a, rest⟩ <;> simp

theorem allDigits_no_colon (p : List Char) (hd : allDigits p = true) : ':' ∉ p := by
  intro hmem
  have := List.all_eq_true.mp hd ':' hmem
  revert this
  decide

theorem allDigits_no_slash (p : List Char) (hd : allDigits p = true) : '/' ∉ p := by
  intro hmem
  have := List.all_eq_true.mp hd '/' hmem
  revert this
  decide

theorem Atoi_digits (s : List Char) (hne : s ≠ []) (hd : allDigits s = true)
    (hb : digitsVal s ≤ 65535) : Atoi s = ((digitsVal s : Int), none) := by
  rcases s with _ | ⟨x, xs⟩
  · simp at hne
  · have hx : ('0' ≤ x && x ≤ '9') = true := by
      have := List.all_eq_true.mp hd x (by simp)
      simpa using this
    have hx1 : ¬ x = '+' := by
      rintro rfl; revert hx; decide
    have hx2 : ¬ x = '-' := by
      rintro rfl; revert hx; decide
    have hsign : AtoiSign (x :: xs) = (false, x :: xs) := by
      simp [AtoiSign, hx1, hx2]
    have h1 : ¬ ((digitsVal (x :: xs) : Int) > maxInt64) := by
      unfold maxInt64; omega
    have h2 : ¬ ((digitsVal (x :: xs) : Int) < minInt64) := by
      unfold minInt64; omega
    simp [Atoi, hsign, hd, h1, h2]

theorem u32_ofNat_le (n : Nat) (h : n ≤ 65535) : u32 (n : Int) = n := by
  show ((n : Int) % 4294967296).toNat = n
  omega

/- ===================== ParseURL lemmas ===================== -/

theorem append_lit_http (X : List Char) :
    "http".data ++ ("://".data ++ X) = "http://".data ++ X := by
  rw [← List.append_assoc]
  exact congrArg (fun l => l ++ X) (by decide)

theorem append_lit_https (X : List Char) :
    "https".data ++ ("://".data ++ X) = "https://".data ++ X := by
  rw [← List.append_assoc]
  exact congrArg (fun l => l ++ X) (by decide)

theorem schemeSplit_http (rest : List Char) :
    schemeSplit ("http://".data ++ rest) = some ("http".data, rest) := by
  unfold schemeSplit
  rw [startsWithL_append]
  have h7 : ("http://".data).length = 7 := rfl
  simp [← h7, List.drop_left]

theorem schemeSplit_https (rest : List Char) :
    schemeSplit ("https://".data ++ rest) = some ("https".data, rest) := by
  unfold schemeSplit
  have h1 : startsWithL "http://".data ("https://".data ++ rest) = false := by
    show startsWithL ['h', 't', 't', 'p', ':', '/', '/']
      (['h', 't', 't', 'p', 's', ':', '/', '/'] ++ rest) = false
    simp [startsWithL]
  rw [h1, startsWithL_append]
  have h8 : ("https://".data).length = 8 := rfl
  simp [← h8, List.drop_left]

theorem parseURLRest_wf (protocol host : List Char) (ps path : Option (List Char))
    (hproto : protocol = "http".data ∨ protocol = "https".data)
    (hh : WFhost host) (hpt : WFport ps) :
    parseURLRest protocol (host ++ (portPart ps ++ expectedPath path)) =
      ((protocol, host, expectedPort protocol ps, expectedPath path), none) := by
  obtain ⟨hne, hcolon, hslash⟩ := hh
  have hdefault : u32 (if protocol = "http".data then (80 : Int) else 443) =
      defaultPort protocol := by
    rcases hproto with rfl | rfl
    · decide
    · decide
  rcases ps with _ | p <;> rcases path with _ | q
  · -- no port, no path
    have h1 : splitNFirst '/' host = (host, none) := splitNFirst_not_mem _ _ hslash
    have h2 : splitAll ':' host = [host] := splitAll_not_mem _ _ hcolon
    simp [parseURLRest, portPart, h1, h2, expectedPort, expectedPath, hdefault]
  · -- no port, path q
    have h1 : splitNFirst '/' (host ++ '/' :: q) = (host, some q) :=
      splitNFirst_append _ _ _ hslash
    have h2 : splitAll ':' host = [host] := splitAll_not_mem _ _ hcolon
    simp [parseURLRest, portPart, h1, h2, expectedPort, expectedPath, hdefault]
  · -- port p, no path
    obtain ⟨hpne, hpdig, hple⟩ := hpt
    have hns : '/' ∉ host ++ ':' :: p := by
      simp [List.mem_append, hslash, allDigits_no_slash p hpdig]
    have h1 : splitNFirst '/' (host ++ ':' :: p) = (host ++ ':' :: p, none) :=
      splitNFirst_not_mem _ _ hns
    have h2 : splitAll ':' (host ++ ':' :: p) = host :: splitAll ':' p :=
      splitAll_append _ _ _ hcolon
    have h3 : splitAll ':' p = [p] := splitAll_not_mem _ _ (allDigits_no_colon p hpdig)
    have h4 : Atoi p = ((digitsVal p : Int), none) := Atoi_digits p hpne hpdig hple
    simp [parseURLRest, portPart, h1, h2, h3, h4, expectedPort, expectedPath,
      u32_ofNat_le (digitsVal p) hple]
  · -- port p, path q
    obtain ⟨hpne, hpdig, hple⟩ := hpt
    have hns : '/' ∉ host ++ ':' :: p := by
      simp [List.mem_append, hslash, allDigits_no_slash p hpdig]
    have h1 : splitNFirst '/' (host ++ ':' :: (p ++ '/' :: q)) =
        (host ++ ':' :: p, some q) := by
      rw [show host ++ ':' :: (p ++ '/' :: q) = (host ++ ':' :: p) ++ '/' :: q by simp]
      exact splitNFirst_append _ _ _ hns
    have h2 : splitAll ':' (host ++ ':' :: p) = host :: splitAll ':' p :=
      splitAll_append _ _ _ hcolon
    have h3 : splitAll ':' p = [p] := splitAll_not_mem _ _ (allDigits_no_colon p hpdig)
    have h4 : Atoi p = ((digitsVal p : Int), none) := Atoi_digits p hpne hpdig hple
    simp [parseURLRest, portPart, h1, h2, h3, h4, expectedPort, expectedPath,
      u32_ofNat_le (digitsVal p) hple]

/- ===================== claims ===================== -/

/-- C3: for every well-formed input `scheme://host[:port][/path]` with scheme
`http` or `https`, `ParseURL` returns exactly that scheme, that host, the
numeric port (the explicit one, or 80 for http / 443 for https when
unspecified) and the `/`-prefixed path (empty when no path segment is given),
with no error; and every input lacking both the `http://` and the `https://`
prefix fails with an "invalid host" error carrying the original string. -/
theorem c3_parse_url_wellformed :
    (∀ scheme host ps path,
      (scheme = "http".data ∨ scheme = "https".data) → WFhost host → WFport ps →
      ParseURL (buildURL scheme host ps path) =
        ((scheme, host, expectedPort scheme ps, expectedPath path), none)) ∧
    (∀ url, startsWithL "http://".data url = false →
      startsWithL "https://".data url = false →
      ParseURL url = (([], [], 0, []), some ("invalid host: ".data ++ url))) := by
  constructor
  · intro scheme host ps path hs hh hpt
    have main := parseURLRest_wf scheme host ps path hs hh hpt
    rcases hs with rfl | rfl
    · have hb : buildURL "http".data host ps path =
          "http://".data ++ (host ++ (portPart ps ++ expectedPath path)) := by
        simp [buildURL, List.append_assoc, append_lit_http]
      rw [hb]
      unfold ParseURL
      rw [schemeSplit_http]
      exact main
    · have hb : buildURL "https".data host ps path =
          "https://".data ++ (host ++ (portPart ps ++ expectedPath path)) := by
        simp [buildURL, List.append_assoc, append_lit_https]
      rw [hb]
      unfold ParseURL
      rw [schemeSplit_https]
      exact main
  · intro url h1 h2
    have hs : schemeSplit url = none := by
      simp [schemeSplit, h1, h2]
    simp [ParseURL, hs]

/-- C3 witness: the theorem instantiated at `https://example.com:8443`
(explicit port, no path) and at the schemeless input `ftp://x`. -/
theorem c3_witness :
    ParseURL (buildURL "https".data "example.com".data (some "8443".data) none) =
      (("https".data, "example.com".data, 8443, []), none) ∧
    ParseURL "ftp://x".data = (([], [], 0, []), some ("invalid host: ".data ++ "ftp://x".data)) := by
  constructor
  · exact c3_parse_url_wellformed.1 "https".data "example.com".data
      (some "8443".data) none (Or.inr rfl) (by decide) (by decide)
  · exact c3_parse_url_wellformed.2 "ftp://x".data (by decide) (by decide)

/-- C2 counterexample: two inputs the claim calls malformed are parsed with no
error: a host-port segment with more than one `:` (the port silently defaults
to 80 and the text after the first `:` is dropped) and an empty host. -/
theorem c2_counterexample :
    ParseURL "http://a:1:2".data = (("http".data, "a".data, 80, []), none) ∧
    ParseURL "http://".data = (("http".data, [], 80, []), none) := by
  constructor <;> decide

/-- C2 (amended): `ParseURL` returns an error exactly when the scheme prefix is
missing, or when the host-port segment splits on `:` into exactly two fields
and the second one fails Go's `Atoi` (which also accepts signed numbers).  A
segment with more than one `:` silently takes the scheme-default port, and an
empty host is returned without error. -/
theorem c2_error_characterization (url : List Char) :
    ((ParseURL url).2).isSome = true ↔
      (schemeSplit url = none ∨
       ∃ pr, schemeSplit url = some pr ∧
         (splitAll ':' (splitNFirst '/' pr.2).1).length = 2 ∧
         ((Atoi ((splitAll ':' (splitNFirst '/' pr.2).1).getD 1 [])).2).isSome = true) := by
  rcases hs : schemeSplit url with _ | pr
  · simp [ParseURL, hs]
  · simp only [ParseURL, hs]
    unfold parseURLRest
    by_cases hlen : (splitAll ':' (splitNFirst '/' pr.2).1).length = 2
    · simp only [hlen, if_true]
      rcases ha : (Atoi ((splitAll ':' (splitNFirst '/' pr.2).1).getD 1 [])).2 with _ | e <;>
      simp_all
    · simp [hlen]

/-- C4: with a failure callback supplied, `DoHTTPWithHandler` invokes it at
most once per attempt: never on a fully successful attempt, exactly once on a
failing one. -/
theorem c4_handler_once (env : Env α) (hp : HTTPParam) :
    (DoHTTPWithHandler env hp true).handlerCalls.length ≤ 1 ∧
    (envSucceeds env hp = true →
      (DoHTTPWithHandler env hp true).handlerCalls = []) ∧
    (envSucceeds env hp = false →
      (DoHTTPWithHandler env hp true).handlerCalls.length = 1) := by
  refine ⟨?_, fun h => (run_success_char env hp h).1, fun h => (run_fail_char env hp h).1⟩
  cases h : envSucceeds env hp
  · exact le_of_eq (run_fail_char env hp h).1
  · simp [(run_success_char env hp h).1]

/-- C4 witness: on a fully successful attempt the handler is never invoked,
and on a failing attempt it is invoked exactly once. -/
theorem c4_witness :
    (DoHTTPWithHandler envOK hpPost true).handlerCalls = [] ∧
    (DoHTTPWithHandler envFail hpPost true).handlerCalls.length = 1 :=
  ⟨(c4_handler_once envOK hpPost).2.1 (by decide),
   (c4_handler_once envFail hpPost).2.2 (by decide)⟩

/-- C5 counterexample: with a nil handler, a response with non-success status
500 whose body still unmarshals cleanly DOES mutate the output location (to 7)
even though the attempt did not succeed — refuting the claim for executions
without a handler. -/
theorem c5_counterexample :
    envSucceeds env500 hpPost = false ∧
    (DoHTTPWithHandler env500 hpPost false).out = some 7 := by
  constructor <;> decide

/-- C5 (amended): in every execution of `DoHTTPWithHandler` with a non-nil
handler, the output location is mutated exactly when the attempt fully
succeeds; on any failing attempt (including a deserialization failure) it is
left unchanged. -/
theorem c5_out_iff_success (env : Env α) (hp : HTTPParam) :
    (DoHTTPWithHandler env hp true).out.isSome = envSucceeds env hp := by
  cases h : envSucceeds env hp
  · simp [(run_fail_char env hp h).2]
  · obtain ⟨_, v, _, hout⟩ := run_success_char env hp h
    simp [hout]

/-- C7: a GET request never attempts input serialization (even when the input
is not serializable) and the request is built with no body; every other method
always attempts to serialize the input before building the request. -/
theorem c7_get_no_marshal (env : Env α) (hp : HTTPParam) (handlerPresent : Bool) :
    (hp.Method = "GET" →
      (DoHTTPWithHandler env hp handlerPresent).marshalAttempted = false ∧
      (DoHTTPWithHandler env hp handlerPresent).reqBodyUsed = some none) ∧
    (hp.Method ≠ "GET" →
      (DoHTTPWithHandler env hp handlerPresent).marshalAttempted = true) := by
  rcases env with ⟨m, nr, snd, rb, um⟩
  rcases rb with ⟨bodyS, rerr⟩
  rcases hv : um bodyS with e | v <;>
  rcases m with em | bm <;> rcases nr with en | u <;> rcases snd with es | ⟨⟨st⟩⟩ <;>
  rcases rerr with _ | er <;> cases handlerPresent <;>
  by_cases hg : hp.Method = "GET" <;>
  simp_all [DoHTTPWithHandler, buildNonGet, afterBuild, statusAndUnmarshal] <;>
  by_cases hst : st = 200 <;>
  simp_all

/-- C7 witness: a GET with an unserializable input never marshals and builds a
body-less request; a POST attempts to marshal. -/
theorem c7_witness :
    (DoHTTPWithHandler envFail hpGet true).marshalAttempted = false ∧
    (DoHTTPWithHandler envFail hpGet true).reqBodyUsed = some none ∧
    (DoHTTPWithHandler envFail hpPost true).marshalAttempted = true :=
  ⟨((c7_get_no_marshal envFail hpGet true).1 rfl).1,
   ((c7_get_no_marshal envFail hpGet true).1 rfl).2,
   (c7_get_no_marshal envFail hpPost true).2 (by decide)⟩

/-- C8: when the attempt reaches the status check with a handler supplied and
the status is not 200, the handler receives exactly one call with category
`ResponseStatusCodeNotOK` whose error text carries the status code and the
first at-most-200 bytes of the body, and the attempt ends without
deserializing into the output location. -/
theorem c8_non_success_status (env : Env α) (hp : HTTPParam) (resp : Resp)
    (hbuild : (if hp.Method = "GET" then isOkB env.newRequest
               else isOkB env.marshal && isOkB env.newRequest) = true)
    (hsend : env.send = .ok resp)
    (hread : env.readBody.2 = none)
    (hstatus : resp.statusCode ≠ 200) :
    (DoHTTPWithHandler env hp true).handlerCalls =
      [(.ResponseStatusCodeNotOK,
        "code: " ++ toString resp.statusCode ++ ", message: " ++
          env.readBody.1.take 200)] ∧
    (DoHTTPWithHandler env hp true).unmarshalAttempted = false ∧
    (DoHTTPWithHandler env hp true).out = none := by
  rcases env with ⟨m, nr, snd, rb, um⟩
  rcases rb with ⟨bodyS, rerr⟩
  simp only at hsend hread
  subst hsend
  subst hread
  by_cases hg : hp.Method = "GET" <;>
  rcases m with em | bm <;> rcases nr with en | u <;>
  simp_all [DoHTTPWithHandler, buildNonGet, afterBuild, statusAndUnmarshal, isOkB]

set_option maxRecDepth 10000 in
/-- C8 witness: a 500 response with body "7" yields exactly the classified
status-code handler call, no unmarshal, no output write. -/
theorem c8_witness :
    (DoHTTPWithHandler env500 hpPost true).handlerCalls =
      [(.ResponseStatusCodeNotOK, "code: 500, message: 7")] ∧
    (DoHTTPWithHandler env500 hpPost true).unmarshalAttempted = false ∧
    (DoHTTPWithHandler env500 hpPost true).out = none := by
  obtain ⟨h1, h2, h3⟩ :=
    c8_non_success_status env500 hpPost ⟨500⟩ (by decide) rfl rfl (by decide)
  refine ⟨?_, h2, h3⟩
  rw [h1]
  decide

/-- C9: with a nil handler, a failing step does not terminate the attempt:
after a request-construction failure execution proceeds to set headers on a
nil request (a nil dereference), and after a non-success status code it still
attempts to deserialize the body into the output location. -/
theorem c9_nil_handler (env : Env α) (hp : HTTPParam) :
    (∀ e, env.newRequest = .error e →
      (DoHTTPWithHandler env hp false).panicked = some .headerSetOnNilRequest ∧
      (DoHTTPWithHandler env hp false).handlerCalls = []) ∧
    (∀ st, env.newRequest = .ok () → env.send = .ok ⟨st⟩ → st ≠ 200 →
      env.readBody.2 = none →
      (DoHTTPWithHandler env hp false).unmarshalAttempted = true ∧
      (DoHTTPWithHandler env hp false).handlerCalls = [] ∧
      ∀ v, env.unmarshal env.readBody.1 = .ok v →
        (DoHTTPWithHandler env hp false).out = some v) := by
  constructor
  · intro e he
    rcases env with ⟨m, nr, snd, rb, um⟩
    simp only at he
    subst he
    by_cases hg : hp.Method = "GET" <;> rcases m with em | bm <;>
    simp_all [DoHTTPWithHandler, buildNonGet, afterBuild]
  · intro st hnr hsend hst hread
    rcases env with ⟨m, nr, snd, rb, um⟩
    rcases rb with ⟨bodyS, rerr⟩
    simp only at hnr hsend hread
    subst hnr
    subst hsend
    subst hread
    rcases hv : um bodyS with e | v <;>
    by_cases hg : hp.Method = "GET" <;> rcases m with em | bm <;>
    simp_all [DoHTTPWithHandler, buildNonGet, afterBuild, statusAndUnmarshal, hst]

/-- C9 witness: with a nil handler, a failed request construction reaches the
nil-request header set, and a 500 response still unmarshals its body into the
output location. -/
theorem c9_witness :
    (DoHTTPWithHandler envNoReq hpPost false).panicked =
      some .headerSetOnNilRequest ∧
    (DoHTTPWithHandler env500 hpPost false).unmarshalAttempted = true ∧
    (DoHTTPWithHandler env500 hpPost false).out = some 7 :=
  ⟨((c9_nil_handler envNoReq hpPost).1 "bad url" rfl).1,
   ((c9_nil_handler env500 hpPost).2 500 rfl rfl (by decide) rfl).1,
   ((c9_nil_handler env500 hpPost).2 500 rfl rfl (by decide) rfl).2.2 7 rfl⟩

/-- C1 counterexample: with an always-failing attempt and `maxRetryTimes = 3`,
the code sleeps after every failed attempt including the last one: it performs
3 sleeps, not the 2 the claim states. -/
theorem c1_counterexample :
    ((DoHTTP envFail hpPost).2).isSome = true ∧
    (DoHTTPWithRetry (fun _ => envFail) hpPost 3).sleeps = 3 ∧
    ¬ (DoHTTPWithRetry (fun _ => envFail) hpPost 3).sleeps = 2 := by
  refine ⟨by decide, ?_, ?_⟩ <;> decide

/-- C1 (amended): with `maxRetryTimes = 3` and every attempt failing,
`DoHTTPWithRetry` makes exactly 3 attempts, sleeps exactly 3 times (once after
each failed attempt, including the last), and returns the error naming the
maximum attempt count 3 and the request path, surfacing only the last
attempt's underlying error. -/
theorem c1_retry_exhaustion (envs : Nat → Env α) (hp : HTTPParam)
    (es : Nat → String) (hf : ∀ i, (DoHTTP (envs i) hp).2 = some (es i)) :
    (DoHTTPWithRetry envs hp 3).attempts = 3 ∧
    (DoHTTPWithRetry envs hp 3).sleeps = 3 ∧
    (DoHTTPWithRetry envs hp 3).outcome =
      .failure (fmtRetryErr 3 hp.Path (es 2)) := by
  obtain ⟨o, ho⟩ := retryAux_all_fail envs hp 3 es hf 3 0 none none (by omega)
  have hdef : DoHTTPWithRetry envs hp 3 = retryAux envs hp 3 3 0 none none := rfl
  rw [hdef, ho]
  norm_num

/-- C1 witness: the amended theorem at a concrete always-failing stub. -/
theorem c1_witness :
    (DoHTTPWithRetry (fun _ => envFail) hpPost 3).attempts = 3 ∧
    (DoHTTPWithRetry (fun _ => envFail) hpPost 3).sleeps = 3 ∧
    (DoHTTPWithRetry (fun _ => envFail) hpPost 3).outcome =
      .failure (fmtRetryErr 3 hpPost.Path
        (formatHandlerErr hpPost .InParameterMarshalToJSONError "boom")) :=
  c1_retry_exhaustion (fun _ => envFail) hpPost
    (fun _ => formatHandlerErr hpPost .InParameterMarshalToJSONError "boom")
    (fun _ => rfl)

/-- C6: if the first `k - 1` attempts fail and attempt `k` succeeds with
`k ≤ maxRetryTimes`, `DoHTTPWithRetry` returns success immediately after
attempt `k`, the output location holds the successful attempt's decoded
payload, and exactly `k - 1` sleeps were performed. -/
theorem c6_retry_success (envs : Nat → Env α) (hp : HTTPParam) (k : Nat)
    (maxR : Int) (hk : 1 ≤ k) (hkM : (k : Int) ≤ maxR)
    (hfail : ∀ j, j < k - 1 → ((DoHTTP (envs j) hp).2).isSome = true)
    (hsucc : (DoHTTP (envs (k - 1)) hp).2 = none) :
    (DoHTTPWithRetry envs hp maxR).outcome = .success ∧
    (DoHTTPWithRetry envs hp maxR).attempts = k ∧
    (DoHTTPWithRetry envs hp maxR).sleeps = k - 1 ∧
    ∃ v, (envs (k - 1)).unmarshal (envs (k - 1)).readBody.1 = .ok v ∧
      (DoHTTPWithRetry envs hp maxR).out = some v := by
  have hrun := retryAux_success envs hp maxR (k - 1) hfail hsucc maxR.toNat 0
    none none (by omega) (by omega)
  have hdef : DoHTTPWithRetry envs hp maxR =
      retryAux envs hp maxR maxR.toNat 0 none none := rfl
  rw [hdef, hrun]
  obtain ⟨v, hv, hout⟩ := doHTTP_success_out _ _ hsucc
  refine ⟨rfl, ?_, rfl, v, hv, ?_⟩
  · show k - 1 + 1 = k
    omega
  · show (DoHTTP (envs (k - 1)) hp).1.out = some v
    exact hout

/-- C6 witness: attempt 0 fails, attempt 1 succeeds (k = 2, max 3): success
after 2 attempts, 1 sleep, output = 7. -/
theorem c6_witness :
    (DoHTTPWithRetry c6envs hpPost 3).outcome = .success ∧
    (DoHTTPWithRetry c6envs hpPost 3).attempts = 2 ∧
    (DoHTTPWithRetry c6envs hpPost 3).sleeps = 1 ∧
    ∃ v, (c6envs 1).unmarshal (c6envs 1).readBody.1 = .ok v ∧
      (DoHTTPWithRetry c6envs hpPost 3).out = some v :=
  c6_retry_success c6envs hpPost 2 3 (by omega) (by omega)
    (fun j hj => by
      have hj0 : j = 0 := by omega
      subst hj0
      decide)
    (by decide)

/-- C10: `DoHTTPWithRetry` with `maxRetryTimes ≤ 0` performs zero attempts and
zero sleeps and then calls `Error()` on the still-nil error while formatting
the final message (a nil dereference); with `maxRetryTimes ≥ 1` that panic
cannot occur. -/
theorem c10_retry_nonpositive (envs : Nat → Env α) (hp : HTTPParam)
    (maxR : Int) :
    (maxR ≤ 0 →
      DoHTTPWithRetry envs hp maxR = ⟨0, 0, none, .panicNilError⟩) ∧
    (1 ≤ maxR →
      (DoHTTPWithRetry envs hp maxR).outcome ≠ .panicNilError) := by
  constructor
  · intro h
    have h0 : maxR.toNat = 0 := by omega
    show retryAux envs hp maxR maxR.toNat 0 none none = _
    rw [h0]
    rfl
  · intro h
    have h1 : 0 < maxR.toNat := by omega
    exact retryAux_pos_no_panic envs hp maxR maxR.toNat 0 none none h1

/-- C10 witness: at `maxRetryTimes = 0` the loop never runs and the final
formatting dereferences the nil error. -/
theorem c10_witness :
    DoHTTPWithRetry (fun _ => envOK) hpPost (0 : Int) =
      ⟨0, 0, none, .panicNilError⟩ :=
  (c10_retry_nonpositive (fun _ => envOK) hpPost 0).1 (by omega)

end KusciaGatewayUtils
